import Mathlib

/-! Order-Manager: `Order` and `OrderManager`

A shallow embedding of `Trading Orders/OrderManager.h` and
`Trading Orders/OrderManager.cpp`.

* C++ `int` is a 32-bit two's-complement integer.  Its values are carried in
  `Int`; the one arithmetic operation of the program, `nextOrderNumber++`,
  is reduced into the 32-bit range by `wrapInt`.
* C++ `double` is `Float`; the program only copies such values.
* `std::vector<int>` is `List Int`, `push_back` appends at the end.
* `printf` is not executed: every call is recorded as its format string and
  its integer arguments (`PrintfCall`), and `PrintfCall.text` renders it.
-/

namespace OrderManagerSpec

/-! ## Machine integers -/

/-- Largest value of a 32-bit `int`. -/
def INT_MAX : Int := 2147483647

/-- Smallest value of a 32-bit `int`. -/
def INT_MIN : Int := -2147483648

/-- Reduction of a mathematical integer to the 32-bit two's-complement
value with the same residue modulo `2^32`. -/
def wrapInt (x : Int) : Int := (x + 2147483648) % 4294967296 - 2147483648

/-! ## Diagnostics -/

/-- One call of `printf`: the format string and the `int` arguments. -/
structure PrintfCall where
  format : String
  args : List Int
  deriving DecidableEq, Repr

/-- Expansion of the `%d` directives of a format, left to right. -/
def expandFormat : List Char → List Int → List Char
  | [], _ => []
  | '%' :: 'd' :: rest, a :: as => (toString a).toList ++ expandFormat rest as
  | c :: rest, as => c :: expandFormat rest as

/-- Text that a `printf` call writes to standard output. -/
def PrintfCall.text (p : PrintfCall) : String :=
  String.mk (expandFormat p.format.toList p.args)

/-! ## `OrderConfig` and `Order` (OrderManager.h) -/

/-- Aggregate `struct OrderConfig`. -/
structure OrderConfig where
  assetName : String
  assetType : String
  assetPair : String
  orderQuantity : Float
  orderPrice : Float
  baseCurrency : String

/-- Data members of `class Order`: `int orderNumber; OrderConfig config;`. -/
structure Order where
  orderNumber : Int
  config : OrderConfig

namespace Order

/-- Getter `int getOrderNumber() const { return orderNumber; }`. -/
def getOrderNumber (self : Order) : Int := self.orderNumber

/-- Getter `std::string getAssetName() const { return config.assetName; }`. -/
def getAssetName (self : Order) : String := self.config.assetName

/-- Getter `std::string getAssetType() const { return config.assetType; }`. -/
def getAssetType (self : Order) : String := self.config.assetType

/-- Getter `std::string getAssetPair() const { return config.assetPair; }`. -/
def getAssetPair (self : Order) : String := self.config.assetPair

/-- Getter `double getQuantity() const { return config.orderQuantity; }`. -/
def getQuantity (self : Order) : Float := self.config.orderQuantity

/-- Getter `double getOrderPrice() const { return config.orderPrice; }`. -/
def getOrderPrice (self : Order) : Float := self.config.orderPrice

/-- Getter `std::string getBaseCurrency() const { return config.baseCurrency; }`. -/
def getBaseCurrency (self : Order) : String := self.config.baseCurrency

/-! The out-of-class definition `Order::Order(int number, std::string asset, ...)` of
`OrderManager.cpp` has no embedding here.  `class Order` declares no
constructor (under the comment `Constructor decleration` the header is empty),
and six of the seven assignments of that body name `assetName`, `assetType`,
`assetPair`, `orderQuantity`, `orderPrice`, `baseCurrency`, which are members
of `OrderConfig` and not of `Order`.  The definition is ill-formed, so it has
no run-time behaviour to translate; the records below are values of the
class's data members, and the getters are the ones of the header. -/

/-- The seven public operations of `class Order`. -/
inductive Getter where
  | getOrderNumber
  | getAssetName
  | getAssetType
  | getAssetPair
  | getQuantity
  | getOrderPrice
  | getBaseCurrency
  deriving DecidableEq, Repr

/-- Value returned by a getter. -/
inductive Value where
  | int (i : Int)
  | string (s : String)
  | double (d : Float)

/-- A call of a public operation on the object `self`: the value returned and
the object after the call. -/
def call (g : Getter) (self : Order) : Value × Order :=
  match g with
  | .getOrderNumber => (.int self.getOrderNumber, self)
  | .getAssetName => (.string self.getAssetName, self)
  | .getAssetType => (.string self.getAssetType, self)
  | .getAssetPair => (.string self.getAssetPair, self)
  | .getQuantity => (.double self.getQuantity, self)
  | .getOrderPrice => (.double self.getOrderPrice, self)
  | .getBaseCurrency => (.string self.getBaseCurrency, self)

end Order

/-! ## `OrderManager` (OrderManager.h, OrderManager.cpp) -/

/-- Data members of `class OrderManager`:
`std::vector<int> orderNumbers; int nextOrderNumber;`. -/
structure OrderManager where
  orderNumbers : List Int
  nextOrderNumber : Int
  deriving DecidableEq, Repr

namespace OrderManager

/-- Constructor `OrderManager::OrderManager()`: the vector is
default-constructed (empty), `nextOrderNumber = 1;`, then
`printf("OrderManager created\n");`. -/
def ctor : OrderManager × PrintfCall :=
  ({ orderNumbers := [], nextOrderNumber := 1 },
   { format := "OrderManager created\n", args := [] })

/-- Destructor `OrderManager::~OrderManager()`:
`printf("OrderManager destroyed\n");`. -/
def dtor (_self : OrderManager) : PrintfCall :=
  { format := "OrderManager destroyed\n", args := [] }

/-- Method `void OrderManager::addOrder()`:
`orderNumbers.push_back(nextOrderNumber);`
`printf("Order #%d added\n", nextOrderNumber);`
`nextOrderNumber++;`. -/
def addOrder (self : OrderManager) : OrderManager × PrintfCall :=
  let pushed := self.orderNumbers ++ [self.nextOrderNumber]
  let line : PrintfCall := { format := "Order #%d added\n", args := [self.nextOrderNumber] }
  ({ orderNumbers := pushed, nextOrderNumber := wrapInt (self.nextOrderNumber + 1) }, line)

/-- Run of `n` consecutive `addOrder` calls on `self`: the final object and the
`printf` calls made, in order. -/
def addOrderTimes : Nat → OrderManager → OrderManager × List PrintfCall
  | 0, self => (self, [])
  | n + 1, self =>
    let before := addOrderTimes n self
    let step := before.1.addOrder
    (step.1, before.2 ++ [step.2])

/-- The object right after construction. -/
def fresh : OrderManager := ctor.1

/-- States of an `OrderManager` that construction followed by some number of
`addOrder` calls produces. -/
def Reachable (s : OrderManager) : Prop :=
  ∃ n : Nat, (addOrderTimes n fresh).1 = s

/-- The relation between the two members that the specification states:
the length of `orderNumbers` is `nextOrderNumber - 1`. -/
def LengthInvariant (s : OrderManager) : Prop :=
  (s.orderNumbers.length : Int) = s.nextOrderNumber - 1

instance (s : OrderManager) : Decidable (LengthInvariant s) := by
  unfold LengthInvariant; infer_instance

/-- The numbers `1, 2, ..., n` in increasing order. -/
def oneTo (n : Nat) : List Int := (List.range n).map (fun i : Nat => (i : Int) + 1)

/-- The increment `nextOrderNumber++` of a call of `addOrder` on `self` leaves
the range of `int`: the mathematical successor of the counter is not a value
of the type. -/
def IncrementOverflows (self : OrderManager) : Prop :=
  self.nextOrderNumber + 1 < INT_MIN ∨ INT_MAX < self.nextOrderNumber + 1

instance (self : OrderManager) : Decidable (IncrementOverflows self) := by
  unfold IncrementOverflows; infer_instance

/-- Life of one `OrderManager` object: construction, `n` calls of `addOrder`,
destruction.  The result is the sequence of `printf` calls made. -/
def session (n : Nat) : List PrintfCall :=
  let created := ctor
  let run := addOrderTimes n created.1
  [created.2] ++ run.2 ++ [dtor run.1]

/-- Standard output of `session n`, one entry per `printf` call. -/
def sessionOutput (n : Nat) : List String := (session n).map PrintfCall.text

/-- The lines `Order #k added` for `k = 1, ..., n`, in that order. -/
def addedLines (n : Nat) : List String :=
  (List.range n).map (fun i : Nat => "Order #" ++ toString ((i : Int) + 1) ++ " added\n")

end OrderManager

/-! ## Auxiliary facts -/

namespace OrderManager

theorem wrapInt_of_inRange (x : Int) (h₁ : INT_MIN ≤ x) (h₂ : x ≤ INT_MAX) :
    wrapInt x = x := by
  unfold INT_MIN at h₁
  unfold INT_MAX at h₂
  unfold wrapInt
  omega

theorem wrapInt_succ (x : Int) : wrapInt (wrapInt x + 1) = wrapInt (x + 1) := by
  unfold wrapInt
  omega

theorem addOrderTimes_succ (n : Nat) (s : OrderManager) :
    addOrderTimes (n + 1) s =
      ((addOrderTimes n s).1.addOrder.1,
        (addOrderTimes n s).2 ++ [(addOrderTimes n s).1.addOrder.2]) := rfl

/-- State after `n` calls on the fresh object, in closed form. -/
theorem addOrderTimes_fresh (n : Nat) :
    (addOrderTimes n fresh).1 =
      { orderNumbers := (List.range n).map (fun i : Nat => wrapInt ((i : Int) + 1))
        nextOrderNumber := wrapInt ((n : Int) + 1) } := by
  induction n with
  | zero => rfl
  | succ k ih =>
    rw [addOrderTimes_succ]
    simp only [ih, addOrder, List.range_succ, List.map_append, List.map_cons, List.map_nil,
      wrapInt_succ]
    push_cast
    rfl

theorem orderNumbers_fresh (n : Nat) :
    (addOrderTimes n fresh).1.orderNumbers =
      (List.range n).map (fun i : Nat => wrapInt ((i : Int) + 1)) := by
  rw [addOrderTimes_fresh]

theorem nextOrderNumber_fresh (n : Nat) :
    (addOrderTimes n fresh).1.nextOrderNumber = wrapInt ((n : Int) + 1) := by
  rw [addOrderTimes_fresh]

theorem oneTo_getElem? (n i : Nat) (h : i < n) : (oneTo n)[i]? = some ((i : Int) + 1) := by
  simp [oneTo, List.getElem?_map, List.getElem?_range h]

theorem orderNumbers_fresh_getElem? (n i : Nat) (h : i < n) :
    (addOrderTimes n fresh).1.orderNumbers[i]? = some (wrapInt ((i : Int) + 1)) := by
  rw [orderNumbers_fresh]
  simp [List.getElem?_map, List.getElem?_range h]

/-- Without overflow the issued numbers are `1, ..., n`. -/
theorem orderNumbers_fresh_of_le (n : Nat) (h : n ≤ 2147483647) :
    (addOrderTimes n fresh).1.orderNumbers = oneTo n := by
  rw [orderNumbers_fresh, oneTo]
  apply List.map_congr_left
  intro i hi
  have hi' : i < n := List.mem_range.mp hi
  apply wrapInt_of_inRange
  · unfold INT_MIN; omega
  · unfold INT_MAX; omega

/-- Wrapped counter values of fewer than `2^32` consecutive calls are distinct. -/
theorem orderNumbers_fresh_nodup (n : Nat) (h : n ≤ 4294967296) :
    ((addOrderTimes n fresh).1.orderNumbers).Nodup := by
  rw [orderNumbers_fresh]
  apply List.Nodup.map_on _ (List.nodup_range n)
  intro i hi j hj hij
  have hi' := List.mem_range.mp hi
  have hj' := List.mem_range.mp hj
  unfold wrapInt at hij
  omega

theorem reachable_addOrderTimes (n : Nat) : Reachable (addOrderTimes n fresh).1 :=
  ⟨n, rfl⟩

end OrderManager

theorem addOrder_format_chars : "Order #%d added\n".toList =
    ['O', 'r', 'd', 'e', 'r', ' ', '#', '%', 'd', ' ', 'a', 'd', 'd', 'e', 'd', '\n'] := by
  decide

/-- Rendering of the diagnostic of `addOrder` for the argument `n`. -/
theorem addOrder_line_text (n : Int) :
    (PrintfCall.mk "Order #%d added\n" [n]).text = "Order #" ++ toString n ++ " added\n" := by
  unfold PrintfCall.text
  simp only [addOrder_format_chars]
  simp [expandFormat]
  apply String.ext
  simp

theorem created_line_text :
    (PrintfCall.mk "OrderManager created\n" []).text = "OrderManager created\n" := by
  decide

theorem destroyed_line_text :
    (PrintfCall.mk "OrderManager destroyed\n" []).text = "OrderManager destroyed\n" := by
  decide

namespace OrderManager

/-- The `printf` calls of `n` calls of `addOrder` on the fresh object, in closed form. -/
theorem addOrderTimes_fresh_calls (n : Nat) :
    (addOrderTimes n fresh).2 =
      (List.range n).map
        (fun i : Nat => PrintfCall.mk "Order #%d added\n" [wrapInt ((i : Int) + 1)]) := by
  induction n with
  | zero => rfl
  | succ k ih =>
    rw [addOrderTimes_succ]
    simp only [ih, addOrder, nextOrderNumber_fresh, List.range_succ, List.map_append,
      List.map_cons, List.map_nil]

/-- Texts printed by `n` calls of `addOrder` on the fresh object. -/
theorem addOrderTimes_fresh_texts (n : Nat) :
    ((addOrderTimes n fresh).2).map PrintfCall.text =
      (List.range n).map
        (fun i : Nat => "Order #" ++ toString (wrapInt ((i : Int) + 1)) ++ " added\n") := by
  rw [addOrderTimes_fresh_calls, List.map_map]
  apply List.map_congr_left
  intro i _
  exact addOrder_line_text _

theorem sessionOutput_eq (n : Nat) :
    sessionOutput n =
      "OrderManager created\n" ::
        ((List.range n).map
          (fun i : Nat => "Order #" ++ toString (wrapInt ((i : Int) + 1)) ++ " added\n")
          ++ ["OrderManager destroyed\n"]) := by
  unfold sessionOutput session
  simp only [List.map_append, List.map_cons, List.map_nil, List.singleton_append,
    List.cons_append, List.nil_append]
  rw [show ctor.1 = fresh from rfl, addOrderTimes_fresh_texts]
  rfl

/-- If the output of `session n` is the expected one, the line of every call is. -/
theorem sessionOutput_line_of_eq (n : Nat)
    (h : sessionOutput n =
      "OrderManager created\n" :: (addedLines n ++ ["OrderManager destroyed\n"]))
    (i : Nat) (hi : i < n) :
    "Order #" ++ toString (wrapInt ((i : Int) + 1)) ++ " added\n"
      = "Order #" ++ toString ((i : Int) + 1) ++ " added\n" := by
  rw [sessionOutput_eq] at h
  have h₁ := List.append_cancel_right (List.cons.inj h).2
  have h₂ := congrArg (fun l : List String => l[i]?) h₁
  simp only [addedLines, List.getElem?_map, List.getElem?_range hi, Option.map_some'] at h₂
  exact Option.some.inj h₂

/-- Calls of `addOrder` only append: the vector after `m` calls is the old one
followed by `m` new entries. -/
theorem addOrderTimes_append (m : Nat) (self : OrderManager) :
    ∃ t : List Int, (addOrderTimes m self).1.orderNumbers = self.orderNumbers ++ t ∧
      t.length = m := by
  induction m with
  | zero => exact ⟨[], by simp [addOrderTimes], rfl⟩
  | succ k ih =>
    obtain ⟨t, ht, hlen⟩ := ih
    refine ⟨t ++ [(addOrderTimes k self).1.nextOrderNumber], ?_, ?_⟩
    · rw [addOrderTimes_succ]
      simp only [addOrder, ht, List.append_assoc]
    · simp [hlen]

end OrderManager

/-! ## Claims -/

/-- C1 (as stated, refuted): after `2^31 = 2147483648` calls of `addOrder` on a
freshly constructed `OrderManager` the vector `orderNumbers` is not
`[1, 2, ..., 2147483648]`: its last entry is an `int`, and `2147483648` is not
one. -/
theorem C1_counterexample_sequence_2pow31 :
    (OrderManager.addOrderTimes 2147483648 OrderManager.fresh).1.orderNumbers
      ≠ OrderManager.oneTo 2147483648 := by
  intro h
  have h₁ := OrderManager.orderNumbers_fresh_getElem? 2147483648 2147483647 (by omega)
  have h₂ := OrderManager.oneTo_getElem? 2147483648 2147483647 (by omega)
  rw [h, h₂] at h₁
  revert h₁
  unfold wrapInt
  decide

/-- C1 (amended): for every `N` with `0 ≤ N ≤ INT_MAX = 2147483647`, running `N`
calls of `addOrder` on a freshly constructed `OrderManager` leaves
`orderNumbers` equal to exactly `[1, 2, ..., N]`, in that order. -/
theorem C1_addOrder_sequence (N : Nat) (h : (N : Int) ≤ INT_MAX) :
    (OrderManager.addOrderTimes N OrderManager.fresh).1.orderNumbers
      = OrderManager.oneTo N := by
  apply OrderManager.orderNumbers_fresh_of_le
  unfold INT_MAX at h
  omega

/-- C1, at three calls: the sequence is `[1, 2, 3]`. -/
theorem C1_addOrder_sequence_witness :
    ((3 : Nat) : Int) ≤ INT_MAX ∧
      (OrderManager.addOrderTimes 3 OrderManager.fresh).1.orderNumbers = [1, 2, 3] :=
  ⟨by decide, C1_addOrder_sequence 3 (by decide)⟩

/-- C3 (as stated, refuted): after `2147483647` calls of `addOrder` on a freshly
constructed `OrderManager`, `nextOrderNumber` is not `2147483647 + 1`; the
increment of the call that issued `INT_MAX` left the range of `int`. -/
theorem C3_counterexample_counter_at_INT_MAX :
    (OrderManager.addOrderTimes 2147483647 OrderManager.fresh).1.nextOrderNumber
      ≠ 2147483647 + 1 := by
  rw [OrderManager.nextOrderNumber_fresh]
  unfold wrapInt
  decide

/-- C3 (amended): for every `N` with `0 ≤ N < INT_MAX`, after `N` calls of
`addOrder` on a freshly constructed `OrderManager`, `nextOrderNumber` equals
`N + 1`, and the `(N+1)`-th call issues exactly `N + 1`: it appends `N + 1`
to `[1, ..., N]` and prints `N + 1`. -/
theorem C3_counter_after_N_calls (N : Nat) (h : (N : Int) < INT_MAX) :
    (OrderManager.addOrderTimes N OrderManager.fresh).1.nextOrderNumber = (N : Int) + 1 ∧
    (OrderManager.addOrderTimes N OrderManager.fresh).1.addOrder.1.orderNumbers
      = OrderManager.oneTo N ++ [(N : Int) + 1] ∧
    (OrderManager.addOrderTimes N OrderManager.fresh).1.addOrder.2.args = [(N : Int) + 1] ∧
    (OrderManager.addOrderTimes (N + 1) OrderManager.fresh).1.orderNumbers.getLast?
      = some ((N : Int) + 1) := by
  have hN : N ≤ 2147483646 := by unfold INT_MAX at h; omega
  have hnext : (OrderManager.addOrderTimes N OrderManager.fresh).1.nextOrderNumber
      = (N : Int) + 1 := by
    rw [OrderManager.nextOrderNumber_fresh]
    apply OrderManager.wrapInt_of_inRange
    · unfold INT_MIN; omega
    · unfold INT_MAX; omega
  have hlist := OrderManager.orderNumbers_fresh_of_le N (by omega)
  refine ⟨hnext, ?_, ?_, ?_⟩
  · simp only [OrderManager.addOrder, hnext, hlist]
  · simp only [OrderManager.addOrder, hnext]
  · rw [OrderManager.addOrderTimes_succ]
    simp only [OrderManager.addOrder, hnext, hlist]
    simp

/-- C3, at three calls: the counter is `4` and the fourth call issues `4`. -/
theorem C3_counter_after_N_calls_witness :
    ((3 : Nat) : Int) < INT_MAX ∧
    (OrderManager.addOrderTimes 3 OrderManager.fresh).1.nextOrderNumber = 4 ∧
    (OrderManager.addOrderTimes 3 OrderManager.fresh).1.addOrder.1.orderNumbers
      = [1, 2, 3, 4] ∧
    (OrderManager.addOrderTimes 3 OrderManager.fresh).1.addOrder.2.args = [4] ∧
    (OrderManager.addOrderTimes 4 OrderManager.fresh).1.orderNumbers.getLast? = some 4 :=
  ⟨by decide, C3_counter_after_N_calls 3 (by decide)⟩

/-- C4: a freshly constructed `OrderManager` has an empty `orderNumbers` and
`nextOrderNumber = 1`, and its first `addOrder` issues `1`: the vector
becomes `[1]` and the diagnostic line is `Order #1 added`. -/
theorem C4_fresh_state :
    OrderManager.ctor.1.orderNumbers = [] ∧
    OrderManager.ctor.1.nextOrderNumber = 1 ∧
    OrderManager.ctor.1.addOrder.1.orderNumbers = [1] ∧
    OrderManager.ctor.1.addOrder.2.args = [1] ∧
    OrderManager.ctor.1.addOrder.2.text = "Order #1 added\n" := by
  decide

/-- C5 (as stated, refuted): the state reached from construction by
`2147483647` calls of `addOrder` has `2147483647` entries in `orderNumbers`,
which is not its `nextOrderNumber - 1`. -/
theorem C5_counterexample_length_at_INT_MAX :
    ¬ ∀ s : OrderManager, OrderManager.Reachable s → OrderManager.LengthInvariant s := by
  intro hall
  have h := hall _ ⟨2147483647, rfl⟩
  unfold OrderManager.LengthInvariant at h
  rw [OrderManager.nextOrderNumber_fresh, OrderManager.orderNumbers_fresh] at h
  simp only [List.length_map, List.length_range] at h
  revert h
  unfold wrapInt
  decide

/-- C5 (amended): the length of `orderNumbers` equals `nextOrderNumber - 1`
after construction, in every state reached from construction by at most
`INT_MAX - 1 = 2147483646` calls of `addOrder`, and `addOrder` preserves the
equation from every state whose `nextOrderNumber` is below `INT_MAX`. -/
theorem C5_length_invariant (N : Nat) (hN : (N : Int) < INT_MAX)
    (s : OrderManager) (hs : s.nextOrderNumber < INT_MAX)
    (hinv : OrderManager.LengthInvariant s) :
    OrderManager.LengthInvariant OrderManager.ctor.1 ∧
    OrderManager.LengthInvariant (OrderManager.addOrderTimes N OrderManager.fresh).1 ∧
    OrderManager.LengthInvariant s.addOrder.1 := by
  unfold INT_MAX at hN hs
  unfold OrderManager.LengthInvariant at hinv ⊢
  refine ⟨by decide, ?_, ?_⟩
  · rw [OrderManager.nextOrderNumber_fresh, OrderManager.orderNumbers_fresh]
    simp only [List.length_map, List.length_range]
    unfold wrapInt
    omega
  · simp only [OrderManager.addOrder, List.length_append, List.length_singleton]
    unfold wrapInt
    push_cast
    omega

/-- C5, at three calls and at the state `([1, 2], 3)`. -/
theorem C5_length_invariant_witness :
    ((3 : Nat) : Int) < INT_MAX ∧
    (3 : Int) < INT_MAX ∧
    OrderManager.LengthInvariant ⟨[1, 2], 3⟩ ∧
    OrderManager.LengthInvariant OrderManager.ctor.1 ∧
    OrderManager.LengthInvariant (OrderManager.addOrderTimes 3 OrderManager.fresh).1 ∧
    OrderManager.LengthInvariant (OrderManager.addOrder ⟨[1, 2], 3⟩).1 :=
  ⟨by decide, by decide, by decide,
    C5_length_invariant 3 (by decide) ⟨[1, 2], 3⟩ (by decide) (by decide)⟩

/-- C6 (as stated, refuted): in the state reached from construction by
`2147483646` calls of `addOrder` (where `nextOrderNumber = INT_MAX`), one more
call does not leave `nextOrderNumber` one larger than it was. -/
theorem C6_counterexample_step_at_INT_MAX :
    (OrderManager.addOrderTimes 2147483646 OrderManager.fresh).1.addOrder.1.nextOrderNumber
      ≠ (OrderManager.addOrderTimes 2147483646 OrderManager.fresh).1.nextOrderNumber + 1 := by
  simp only [OrderManager.addOrder, OrderManager.nextOrderNumber_fresh]
  unfold wrapInt
  decide

/-- C6 (amended): for every `OrderManager` state `(orderNumbers = s,
nextOrderNumber = n)` in which `n` is an `int` below `INT_MAX`, one call of
`addOrder` yields the state `(s` with `n` appended at the end`, n + 1)` and
reports `n` in its diagnostic, whose text is `Order #n added`. -/
theorem C6_addOrder_step (self : OrderManager)
    (hlo : INT_MIN ≤ self.nextOrderNumber) (hhi : self.nextOrderNumber < INT_MAX) :
    self.addOrder.1 =
      { orderNumbers := self.orderNumbers ++ [self.nextOrderNumber]
        nextOrderNumber := self.nextOrderNumber + 1 } ∧
    self.addOrder.2 = { format := "Order #%d added\n", args := [self.nextOrderNumber] } ∧
    self.addOrder.2.text = "Order #" ++ toString self.nextOrderNumber ++ " added\n" := by
  have hw : wrapInt (self.nextOrderNumber + 1) = self.nextOrderNumber + 1 := by
    apply OrderManager.wrapInt_of_inRange
    · unfold INT_MIN at hlo ⊢; omega
    · unfold INT_MAX at hhi ⊢; omega
  refine ⟨?_, rfl, ?_⟩
  · simp only [OrderManager.addOrder, hw]
  · exact addOrder_line_text self.nextOrderNumber

/-- C6, at the state `([1, 2], 3)`: the call yields `([1, 2, 3], 4)` and prints
`Order #3 added`. -/
theorem C6_addOrder_step_witness :
    INT_MIN ≤ (3 : Int) ∧ (3 : Int) < INT_MAX ∧
    (OrderManager.addOrder ⟨[1, 2], 3⟩).1 = ⟨[1, 2, 3], 4⟩ ∧
    (OrderManager.addOrder ⟨[1, 2], 3⟩).2 = ⟨"Order #%d added\n", [3]⟩ ∧
    (OrderManager.addOrder ⟨[1, 2], 3⟩).2.text = "Order #3 added\n" :=
  ⟨by decide, by decide, C6_addOrder_step ⟨[1, 2], 3⟩ (by decide) (by decide)⟩

/-- C7 (as stated, refuted): the state reached from construction by
`2^32 + 1 = 4294967297` calls of `addOrder` holds a duplicate: positions `0`
and `4294967296` of `orderNumbers` both hold `1`. -/
theorem C7_counterexample_duplicate_after_2pow32 :
    ¬ ∀ s : OrderManager, OrderManager.Reachable s → s.orderNumbers.Nodup := by
  intro hall
  have hnd := hall _ (OrderManager.reachable_addOrderTimes 4294967297)
  rw [List.nodup_iff_getElem?_ne_getElem?] at hnd
  have hlen : ((OrderManager.addOrderTimes 4294967297 OrderManager.fresh).1.orderNumbers).length
      = 4294967297 := by
    rw [OrderManager.orderNumbers_fresh]
    simp only [List.length_map, List.length_range]
  apply hnd 0 4294967296 (by omega) (by omega)
  rw [OrderManager.orderNumbers_fresh_getElem? 4294967297 0 (by omega),
    OrderManager.orderNumbers_fresh_getElem? 4294967297 4294967296 (by omega)]
  unfold wrapInt
  decide

/-- C7 (amended): in every state reached from construction by at most
`2^32 = 4294967296` calls of `addOrder`, `orderNumbers` contains no duplicates:
any two distinct positions hold distinct integers. -/
theorem C7_no_duplicates (N : Nat) (h : N ≤ 4294967296) :
    ((OrderManager.addOrderTimes N OrderManager.fresh).1.orderNumbers).Nodup ∧
    ∀ i j : Nat, i < j →
      j < ((OrderManager.addOrderTimes N OrderManager.fresh).1.orderNumbers).length →
      (OrderManager.addOrderTimes N OrderManager.fresh).1.orderNumbers[i]?
        ≠ (OrderManager.addOrderTimes N OrderManager.fresh).1.orderNumbers[j]? := by
  have hnd := OrderManager.orderNumbers_fresh_nodup N h
  exact ⟨hnd, List.nodup_iff_getElem?_ne_getElem?.mp hnd⟩

/-- C7, at three calls. -/
theorem C7_no_duplicates_witness :
    (3 : Nat) ≤ 4294967296 ∧
    ((OrderManager.addOrderTimes 3 OrderManager.fresh).1.orderNumbers).Nodup :=
  ⟨by decide, (C7_no_duplicates 3 (by decide)).1⟩

/-- C8: for every call of `addOrder`, the order number printed in the
diagnostic line of that call equals the integer the same call appended as
the new last element of `orderNumbers`. -/
theorem C8_printed_number_is_appended (self : OrderManager) :
    ∃ k : Int,
      self.addOrder.1.orderNumbers = self.orderNumbers ++ [k] ∧
      self.addOrder.1.orderNumbers.getLast? = some k ∧
      self.addOrder.2.args = [k] ∧
      self.addOrder.2.text = "Order #" ++ toString k ++ " added\n" := by
  refine ⟨self.nextOrderNumber, rfl, ?_, rfl, addOrder_line_text self.nextOrderNumber⟩
  simp [OrderManager.addOrder]

/-- C10: every public operation of `Order` (the seven getters) leaves the object
as it was: `orderNumber` and the six descriptive fields keep the values they
had before the call. -/
theorem C10_getters_leave_fields (g : Order.Getter) (self : Order) :
    (Order.call g self).2 = self ∧
    (Order.call g self).2.orderNumber = self.orderNumber ∧
    (Order.call g self).2.config.assetName = self.config.assetName ∧
    (Order.call g self).2.config.assetType = self.config.assetType ∧
    (Order.call g self).2.config.assetPair = self.config.assetPair ∧
    (Order.call g self).2.config.orderQuantity = self.config.orderQuantity ∧
    (Order.call g self).2.config.orderPrice = self.config.orderPrice ∧
    (Order.call g self).2.config.baseCurrency = self.config.baseCurrency := by
  cases g <;> exact ⟨rfl, rfl, rfl, rfl, rfl, rfl, rfl, rfl⟩

/-- C11: with `nextOrderNumber` a 32-bit signed `int`, for every `N ≤ INT_MAX =
2^31 - 1` the `N` numbers issued from construction are exactly `[1, ..., N]`,
none wrapped.  The `k`-th call (for `k ≤ N`) issues `k`; its increment leaves
the range of `int` exactly when `k = INT_MAX`, and `addOrder` stores the exact
successor `k + 1` exactly when `k` is not `INT_MAX`.  The call that issues
`INT_MAX` is the `2147483647`-th: it still appends `INT_MAX`, its increment
overflows, and what `addOrder` stores is not `INT_MAX + 1` but the wrapped
value `INT_MIN`. -/
theorem C11_first_overflow_at_INT_MAX (N : Nat) (h : (N : Int) ≤ INT_MAX) :
    (OrderManager.addOrderTimes N OrderManager.fresh).1.orderNumbers = OrderManager.oneTo N ∧
    (∀ k : Nat, k < N →
      (OrderManager.addOrderTimes k OrderManager.fresh).1.nextOrderNumber = (k : Int) + 1 ∧
      (OrderManager.IncrementOverflows (OrderManager.addOrderTimes k OrderManager.fresh).1
        ↔ (k : Int) + 1 = INT_MAX) ∧
      ((OrderManager.addOrderTimes k OrderManager.fresh).1.addOrder.1.nextOrderNumber
          = (k : Int) + 1 + 1
        ↔ (k : Int) + 1 ≠ INT_MAX)) ∧
    (OrderManager.addOrderTimes 2147483646 OrderManager.fresh).1.nextOrderNumber = INT_MAX ∧
    (OrderManager.addOrderTimes 2147483646 OrderManager.fresh).1.addOrder.1.orderNumbers.getLast?
      = some INT_MAX ∧
    OrderManager.IncrementOverflows
      (OrderManager.addOrderTimes 2147483646 OrderManager.fresh).1 ∧
    (OrderManager.addOrderTimes 2147483646 OrderManager.fresh).1.addOrder.1.nextOrderNumber
      = INT_MIN ∧
    (OrderManager.addOrderTimes 2147483646 OrderManager.fresh).1.addOrder.1.nextOrderNumber
      ≠ INT_MAX + 1 := by
  have hN : N ≤ 2147483647 := by unfold INT_MAX at h; omega
  have hnext : ∀ k : Nat, k < 2147483647 →
      (OrderManager.addOrderTimes k OrderManager.fresh).1.nextOrderNumber = (k : Int) + 1 := by
    intro k hk
    rw [OrderManager.nextOrderNumber_fresh]
    apply OrderManager.wrapInt_of_inRange
    · unfold INT_MIN; omega
    · unfold INT_MAX; omega
  have hstored : ∀ k : Nat, k < 2147483647 →
      (OrderManager.addOrderTimes k OrderManager.fresh).1.addOrder.1.nextOrderNumber
        = wrapInt ((k : Int) + 1 + 1) := by
    intro k hk
    simp only [OrderManager.addOrder, hnext k hk]
  have hlast : ∀ k : Nat, k < 2147483647 →
      (OrderManager.addOrderTimes k OrderManager.fresh).1.addOrder.1.orderNumbers.getLast?
        = some ((k : Int) + 1) := by
    intro k hk
    simp only [OrderManager.addOrder, hnext k hk]
    simp
  have hmax : ((2147483646 : Nat) : Int) + 1 = INT_MAX := by unfold INT_MAX; norm_num
  refine ⟨OrderManager.orderNumbers_fresh_of_le N hN, ?_, ?_, ?_, ?_, ?_, ?_⟩
  · intro k hk
    refine ⟨hnext k (by omega), ?_, ?_⟩
    · unfold OrderManager.IncrementOverflows
      rw [hnext k (by omega)]
      unfold INT_MIN INT_MAX
      omega
    · rw [hstored k (by omega)]
      unfold wrapInt INT_MAX
      omega
  · rw [hnext 2147483646 (by omega), hmax]
  · rw [hlast 2147483646 (by omega), hmax]
  · unfold OrderManager.IncrementOverflows
    rw [hnext 2147483646 (by omega)]
    unfold INT_MIN INT_MAX
    norm_num
  · rw [hstored 2147483646 (by omega)]
    unfold wrapInt INT_MIN
    norm_num
  · rw [hstored 2147483646 (by omega)]
    unfold wrapInt INT_MAX
    norm_num

/-- C11, at three calls: the numbers are `[1, 2, 3]`, none of the three
increments overflows and each stores the exact successor. -/
theorem C11_first_overflow_at_INT_MAX_witness :
    ((3 : Nat) : Int) ≤ INT_MAX ∧
    (OrderManager.addOrderTimes 3 OrderManager.fresh).1.orderNumbers = [1, 2, 3] ∧
    (∀ k : Nat, k < 3 →
      (OrderManager.addOrderTimes k OrderManager.fresh).1.nextOrderNumber = (k : Int) + 1 ∧
      (OrderManager.IncrementOverflows (OrderManager.addOrderTimes k OrderManager.fresh).1
        ↔ (k : Int) + 1 = INT_MAX) ∧
      ((OrderManager.addOrderTimes k OrderManager.fresh).1.addOrder.1.nextOrderNumber
          = (k : Int) + 1 + 1
        ↔ (k : Int) + 1 ≠ INT_MAX)) ∧
    (OrderManager.addOrderTimes 2147483646 OrderManager.fresh).1.nextOrderNumber = INT_MAX ∧
    (OrderManager.addOrderTimes 2147483646 OrderManager.fresh).1.addOrder.1.orderNumbers.getLast?
      = some INT_MAX ∧
    OrderManager.IncrementOverflows
      (OrderManager.addOrderTimes 2147483646 OrderManager.fresh).1 ∧
    (OrderManager.addOrderTimes 2147483646 OrderManager.fresh).1.addOrder.1.nextOrderNumber
      = INT_MIN ∧
    (OrderManager.addOrderTimes 2147483646 OrderManager.fresh).1.addOrder.1.nextOrderNumber
      ≠ INT_MAX + 1 :=
  ⟨by decide, C11_first_overflow_at_INT_MAX 3 (by decide)⟩

/-- C12 (as stated, refuted): for `N = 2^31 = 2147483648` the output of
construction, `N` calls of `addOrder` and destruction is not the line
`OrderManager created`, the lines `Order #k added` for `k = 1, ..., N` and the
line `OrderManager destroyed`: the line of the last call does not read
`Order #2147483648 added`. -/
theorem C12_counterexample_output_2pow31 :
    OrderManager.sessionOutput 2147483648 ≠
      "OrderManager created\n" ::
        (OrderManager.addedLines 2147483648 ++ ["OrderManager destroyed\n"]) := by
  intro h
  have h₁ := OrderManager.sessionOutput_line_of_eq 2147483648 h 2147483647 (by omega)
  revert h₁
  unfold wrapInt
  decide

/-- C12 (amended): for every `N` with `0 ≤ N ≤ INT_MAX = 2147483647`, the
diagnostic output of constructing an `OrderManager`, calling `addOrder` `N`
times and destroying it is exactly the line `OrderManager created`, then the
lines `Order #k added` for `k = 1, 2, ..., N` in that order, then the line
`OrderManager destroyed`. -/
theorem C12_session_output (N : Nat) (h : (N : Int) ≤ INT_MAX) :
    OrderManager.sessionOutput N =
      "OrderManager created\n" ::
        (OrderManager.addedLines N ++ ["OrderManager destroyed\n"]) := by
  have hmid : (List.range N).map
        (fun i : Nat => "Order #" ++ toString (wrapInt ((i : Int) + 1)) ++ " added\n")
      = OrderManager.addedLines N := by
    unfold OrderManager.addedLines
    apply List.map_congr_left
    intro i hi
    have hi' : i < N := List.mem_range.mp hi
    rw [OrderManager.wrapInt_of_inRange]
    · unfold INT_MIN; omega
    · unfold INT_MAX at h ⊢; omega
  rw [OrderManager.sessionOutput_eq, hmid]

/-- C12, at three calls: five lines are written. -/
theorem C12_session_output_witness :
    ((3 : Nat) : Int) ≤ INT_MAX ∧
    OrderManager.sessionOutput 3 =
      ["OrderManager created\n", "Order #1 added\n", "Order #2 added\n",
        "Order #3 added\n", "OrderManager destroyed\n"] :=
  ⟨by decide, C12_session_output 3 (by decide)⟩

/-- C13 (as stated, refuted): two `Order` records with the same `orderNumber`
whose `OrderConfig` values differ give different results of `getAssetName()`
and of `getBaseCurrency()`: the accessors do depend on the `OrderConfig` the
record holds. -/
theorem C13_counterexample_accessor_reads_config :
    (Order.mk 7 ⟨"Bitcoin", "Crypto", "BTC/USD", 2.5, 41000.0, "USD"⟩).getAssetName
      ≠ (Order.mk 7 ⟨"", "", "", 2.5, 41000.0, ""⟩).getAssetName ∧
    (Order.mk 7 ⟨"Bitcoin", "Crypto", "BTC/USD", 2.5, 41000.0, "USD"⟩).getBaseCurrency
      ≠ (Order.mk 7 ⟨"", "", "", 2.5, 41000.0, ""⟩).getBaseCurrency := by
  constructor
  · show ("Bitcoin" : String) ≠ ""
    decide
  · show ("USD" : String) ≠ ""
    decide

/-- C13 (amended): the `OrderConfig` held by an `Order` is what the six
descriptive accessors consume: for every record, `getAssetName`,
`getAssetType`, `getAssetPair`, `getQuantity`, `getOrderPrice` and
`getBaseCurrency` return exactly the corresponding field of its `config` and
do not depend on `orderNumber`; only `getOrderNumber` does not depend on the
`OrderConfig` value. -/
theorem C13_accessors_return_config_fields (number number₂ : Int) (c c₂ : OrderConfig) :
    (Order.mk number c).getAssetName = c.assetName ∧
    (Order.mk number c).getAssetType = c.assetType ∧
    (Order.mk number c).getAssetPair = c.assetPair ∧
    (Order.mk number c).getQuantity = c.orderQuantity ∧
    (Order.mk number c).getOrderPrice = c.orderPrice ∧
    (Order.mk number c).getBaseCurrency = c.baseCurrency ∧
    (Order.mk number₂ c).getAssetName = (Order.mk number c).getAssetName ∧
    (Order.mk number₂ c).getAssetType = (Order.mk number c).getAssetType ∧
    (Order.mk number₂ c).getAssetPair = (Order.mk number c).getAssetPair ∧
    (Order.mk number₂ c).getQuantity = (Order.mk number c).getQuantity ∧
    (Order.mk number₂ c).getOrderPrice = (Order.mk number c).getOrderPrice ∧
    (Order.mk number₂ c).getBaseCurrency = (Order.mk number c).getBaseCurrency ∧
    (Order.mk number c₂).getOrderNumber = (Order.mk number c).getOrderNumber :=
  ⟨rfl, rfl, rfl, rfl, rfl, rfl, rfl, rfl, rfl, rfl, rfl, rfl, rfl⟩

/-- C14: `addOrder` is append-only on any state, reachable or not: for every
`OrderManager` state with `orderNumbers = s` and every `m ≥ 0`, after `m`
calls of `addOrder` the vector is `s` followed by `m` new entries: `s` is a
prefix of it, its length is `|s| + m`, and every position below `|s|` holds
the entry it held before. -/
theorem C14_addOrder_append_only (self : OrderManager) (m : Nat) :
    (∃ t : List Int,
      (OrderManager.addOrderTimes m self).1.orderNumbers = self.orderNumbers ++ t ∧
      t.length = m) ∧
    (OrderManager.addOrderTimes m self).1.orderNumbers.length
      = self.orderNumbers.length + m ∧
    (OrderManager.addOrderTimes m self).1.orderNumbers.take self.orderNumbers.length
      = self.orderNumbers ∧
    (∀ i : Nat, i < self.orderNumbers.length →
      (OrderManager.addOrderTimes m self).1.orderNumbers[i]? = self.orderNumbers[i]?) := by
  obtain ⟨t, ht, hlen⟩ := OrderManager.addOrderTimes_append m self
  refine ⟨⟨t, ht, hlen⟩, ?_, ?_, ?_⟩
  · rw [ht, List.length_append, hlen]
  · rw [ht, List.take_left]
  · intro i hi
    rw [ht, List.getElem?_append_left hi]

end OrderManagerSpec
